import Mathlib

/-!
Verification of `compare-pdf.py` (pdf-visual-diff).

The script rasterizes two PDF files to page images, pairs pages by index
with `itertools.zip_longest`, runs `pixelmatch` on each fully present pair,
and writes `diff_page_{i+1}.png` files for non-identical pages into an
output directory created up front.

The external libraries (pdf2image, PIL, pixelmatch) are modelled as a
`Backend` structure of black-box functions; the parts of their contracts
that the script relies on structurally (a resize produces an image of the
requested dimensions, `convert("RGBA")` keeps the pixel dimensions and sets
the 4-channel mode, `pixelmatch` returns a mismatch count and fills a diff
overlay of the first image's size) are baked into thin wrappers, while all
pixel-payload computation stays abstract.  Filesystem writes and printed
lines are reified as event and log traces.
-/

/-- A raster page image: pixel dimensions, a pixel-format mode string
(such as "RGB" or "RGBA"), and an abstract pixel payload. -/
structure Img where
  width : Nat
  height : Nat
  mode : String
  data : List Nat
deriving Repr, DecidableEq, Inhabited

/-- `img.size` in PIL is the pair (width, height). -/
def Img.size (img : Img) : Nat × Nat := (img.width, img.height)

/-- The external collaborators of the script, treated as black boxes:
PDF rasterization (`pdf2image.convert_from_path`, dpi=100,
use_pdftocairo=True), PIL pixel-format conversion / resize (LANCZOS) /
alpha compositing payloads, and the pixelmatch count and diff-overlay
payload (threshold=0.1).  Thresholds and DPI are fixed constants in the
script, so they are folded into the black boxes. -/
structure Backend where
  convertFromPath : String → Except String (List Img)
  convertRGBAdata : List Nat → List Nat
  resizeData : Img → Nat → Nat → List Nat
  pixelmatchCount : Img → Img → Nat
  pixelmatchDiffData : Img → Img → List Nat
  compositeData : Img → Img → List Nat

/-- `img.convert("RGBA")`: same pixel dimensions, mode becomes "RGBA",
payload transformed by the library. -/
def Img.convertRGBA (B : Backend) (img : Img) : Img :=
  { width := img.width, height := img.height, mode := "RGBA",
    data := B.convertRGBAdata img.data }

/-- `img.resize((w, h), Image.LANCZOS)`: the result has the requested
dimensions and the same mode; the payload is the library's resampling. -/
def Img.resize (B : Backend) (img : Img) (w h : Nat) : Img :=
  { width := w, height := h, mode := img.mode, data := B.resizeData img w h }

/-- `Image.alpha_composite(a, b)`: an RGBA image of `a`'s dimensions whose
payload is the library's alpha blend. -/
def alpha_composite (B : Backend) (a b : Img) : Img :=
  { width := a.width, height := a.height, mode := "RGBA",
    data := B.compositeData a b }

/-- The diff overlay that `pixelmatch(a, b, diff_img, threshold=0.1)`
writes into `diff_img = Image.new("RGBA", a.size)`. -/
def pixelDiffImg (B : Backend) (a b : Img) : Img :=
  { width := a.width, height := a.height, mode := "RGBA",
    data := B.pixelmatchDiffData a b }

/-- `itertools.zip_longest`, specialised to two sequences with fill value
`None`: pairs positionally up to the longer input, padding the shorter
side with `none`. -/
def zip_longest {α β : Type} : List α → List β → List (Option α × Option β)
  | [], ys => ys.map (fun y => (none, some y))
  | x :: xs, [] => (some x, none) :: zip_longest xs []
  | x :: xs, y :: ys => (some x, some y) :: zip_longest xs ys

/-- A filesystem effect performed by the script: creating the output
directory (`Path(output_dir).mkdir(exist_ok=True, parents=True)`) or
saving an image to a path (`img.save(path)`). -/
inductive FsEvent where
  | mkdirOutput (dir : String)
  | save (path : String) (img : Img)
deriving Repr, DecidableEq

deriving instance DecidableEq for Except

/-- The observable outcome of a run: filesystem events in order, printed
lines in order, the pixelmatch invocations (page index and the two image
arguments), and either the returned boolean or the propagated exception. -/
structure RunOut where
  events : List FsEvent
  logs : List String
  calls : List (Nat × Img × Img)
  result : Except String Bool
deriving Repr, DecidableEq

/-- `Path(output_dir) / f"diff_page_{i+1}.png"` for 0-based page index `i`. -/
def diffPath (output_dir : String) (i : Nat) : String :=
  output_dir ++ "/diff_page_" ++ toString (i + 1) ++ ".png"

/-- Rendering of a PIL size tuple in an f-string, e.g. "(595, 842)". -/
def sizeStr (s : Nat × Nat) : String :=
  "(" ++ toString s.1 ++ ", " ++ toString s.2 ++ ")"

/-- `f"Page {i+1}: Missing in one of the PDFs."` for 0-based index `i`. -/
def missingMsg (i : Nat) : String :=
  "Page " ++ toString (i + 1) ++ ": Missing in one of the PDFs."

/-- `f"Page {i+1}: Size mismatch {img1.size} vs {img2.size}. Resizing img2."` -/
def sizeMismatchMsg (i : Nat) (a b : Img) : String :=
  "Page " ++ toString (i + 1) ++ ": Size mismatch " ++ sizeStr a.size ++
    " vs " ++ sizeStr b.size ++ ". Resizing img2."

/-- `f"Page {i+1}: Found {m} pixels of difference."` for 0-based index `i`. -/
def foundMsg (i : Nat) (m : Nat) : String :=
  "Page " ++ toString (i + 1) ++ ": Found " ++ toString m ++
    " pixels of difference."

/-- `f"Warning: Page count mismatch! ({n1} vs {n2})"` -/
def warningMsg (n1 n2 : Nat) : String :=
  "Warning: Page count mismatch! (" ++ toString n1 ++ " vs " ++
    toString n2 ++ ")"

/-- The second operand actually fed to `pixelmatch`: after converting to
RGBA, if `img1.size != img2.size` the script resizes img2 to img1's
dimensions (`img2.resize(img1.size, Image.LANCZOS)`), else img2 is used
as is.  The first operand is never resized. -/
def fitSecond (B : Backend) (a b : Img) : Img :=
  if a.size ≠ b.size then Img.resize B b a.width a.height else b

/-- The comparison loop

```
for i, (img1, img2) in enumerate(zip_longest(images1, images2)):
```

unrolled over the pair list, starting at page index `i`.  The branch for a
pair with both sides `None` models the `AttributeError` that
`existing = img1 or img2; existing.save(...)` would raise (it cannot occur
for pairs produced by `zip_longest`); an exception aborts the loop and
discards the raised iteration, keeping the events of earlier iterations. -/
def comparePages (B : Backend) (output_dir : String) :
    Nat → List (Option Img × Option Img) → RunOut
  | _, [] => ⟨[], [], [], .ok false⟩
  | i, (o1, o2) :: rest =>
    match o1, o2 with
    | none, none =>
      ⟨[], [], [], .error "AttributeError: NoneType object has no attribute save"⟩
    | some img1, none =>
      let r := comparePages B output_dir (i + 1) rest
      ⟨.save (diffPath output_dir i) img1 :: r.events,
       missingMsg i :: r.logs, r.calls, r.result⟩
    | none, some img2 =>
      let r := comparePages B output_dir (i + 1) rest
      ⟨.save (diffPath output_dir i) img2 :: r.events,
       missingMsg i :: r.logs, r.calls, r.result⟩
    | some img1, some img2 =>
      let a := Img.convertRGBA B img1
      let b0 := Img.convertRGBA B img2
      let szLogs := if a.size ≠ b0.size then [sizeMismatchMsg i a b0] else []
      let b := fitSecond B a b0
      let m := B.pixelmatchCount a b
      let r := comparePages B output_dir (i + 1) rest
      if 0 < m then
        ⟨.save (diffPath output_dir i) (alpha_composite B a (pixelDiffImg B a b)) :: r.events,
         szLogs ++ (foundMsg i m :: r.logs),
         (i, a, b) :: r.calls,
         r.result.map (fun _ => true)⟩
      else
        ⟨r.events, szLogs ++ r.logs, (i, a, b) :: r.calls, r.result⟩

/-- `compare_pdf_pages(file1, file2, output_dir)`: rasterize both PDFs
(either call may raise, aborting the run before any filesystem effect),
create the output directory, warn on a page-count mismatch (which already
marks the run as "differences found"), then run the comparison loop over
`zip_longest(images1, images2)`. -/
def compare_pdf_pages (B : Backend) (file1 file2 : String)
    (output_dir : String := "diff_results") : RunOut :=
  match B.convertFromPath file1 with
  | .error e => ⟨[], [], [], .error e⟩
  | .ok images1 =>
    match B.convertFromPath file2 with
    | .error e => ⟨[], [], [], .error e⟩
    | .ok images2 =>
      let countFlag := images1.length ≠ images2.length
      let warn :=
        if images1.length ≠ images2.length then
          [warningMsg images1.length images2.length]
        else []
      let r := comparePages B output_dir 0 (zip_longest images1 images2)
      ⟨FsEvent.mkdirOutput output_dir :: r.events,
       warn ++ r.logs,
       r.calls,
       r.result.map (fun f => countFlag || f)⟩

/-- The `__main__` block: run the comparison; on `True` print
"❌ Differences found." and `sys.exit(1)`, on `False` print
"✅ No significant differences." and `sys.exit(0)`.  An uncaught exception
propagates (non-zero interpreter exit with a traceback). -/
def cliMain (B : Backend) (pdf_a pdf_b : String)
    (output : String := "diff_results") :
    Except String (RunOut × String × Nat) :=
  let r := compare_pdf_pages B pdf_a pdf_b output
  match r.result with
  | .error e => .error e
  | .ok d =>
    if d then .ok (r, "❌ Differences found.", 1)
    else .ok (r, "✅ No significant differences.", 0)

/-- The mismatch count `pixelmatch` reports on a fully present page pair,
after the RGBA conversion and the conditional resize of the second image;
0 for a pair with a missing side (no pixel diff is run there). -/
def pageMismatch (B : Backend) : Option Img × Option Img → Nat
  | (some img1, some img2) =>
    let a := Img.convertRGBA B img1
    let b := fitSecond B a (Img.convertRGBA B img2)
    B.pixelmatchCount a b
  | _ => 0

/-- A page pair with exactly one side present. -/
def pageMissing : Option Img × Option Img → Bool
  | (some _, none) => true
  | (none, some _) => true
  | _ => false

/-- A page pair that the run records as non-identical: one side missing,
or a positive pixelmatch count. -/
def pageNonIdentical (B : Backend) (p : Option Img × Option Img) : Bool :=
  pageMissing p || decide (0 < pageMismatch B p)

/-- The image the script saves for a non-identical page: the existing
side for a missing pair, and the diff overlay alpha-composited onto the
(RGBA-converted) first image for a pixel-mismatch pair.  The value for a
doubly absent pair is irrelevant: such a pair never occurs. -/
def savedImage (B : Backend) : Option Img × Option Img → Img
  | (some img1, none) => img1
  | (none, some img2) => img2
  | (some img1, some img2) =>
    let a := Img.convertRGBA B img1
    let b := fitSecond B a (Img.convertRGBA B img2)
    alpha_composite B a (pixelDiffImg B a b)
  | (none, none) => default

/-- The save events a crash-free run of the loop performs from page index
`i` on: one `diff_page_{n+1}.png` per non-identical page `n`, in page
order. -/
def expectedEvents (B : Backend) (out : String) :
    Nat → List (Option Img × Option Img) → List FsEvent
  | _, [] => []
  | i, p :: rest =>
    if pageNonIdentical B p then
      .save (diffPath out i) (savedImage B p) :: expectedEvents B out (i + 1) rest
    else expectedEvents B out (i + 1) rest

/-- A tiny concrete backend used to witness the theorems: three known
paths rasterize to fixed page lists, every other path raises; the pixel
payload operations are simple total functions. -/
def testImg (w h v : Nat) : Img := ⟨w, h, "RGB", [v]⟩

def testBackend : Backend where
  convertFromPath := fun path =>
    if path = "a.pdf" then .ok [testImg 10 10 1]
    else if path = "b.pdf" then .ok [testImg 10 10 1, testImg 10 10 2]
    else if path = "c.pdf" then .ok [testImg 20 10 3]
    else .error ("not found: " ++ path)
  convertRGBAdata := fun d => d
  resizeData := fun img _ _ => img.data
  pixelmatchCount := fun a b => if a.data = b.data then 0 else 7
  pixelmatchDiffData := fun _ _ => [9]
  compositeData := fun a b => a.data ++ b.data

/-! ### A finer-grained model in which every library call may raise

The script wraps none of its library calls in `try`/`except`: not only the
two rasterization calls but also every PIL and pixelmatch call (`convert`,
`resize`, `pixelmatch`, `alpha_composite`, `save`) can raise an I/O or
decode error that propagates uncaught.  To state that, a second backend
makes every one of those operations fallible; `compare_pdf_pages_exc` is
the same line-by-line translation of the source over this backend, with
an exception aborting the run at the raise point (effects performed
before the raise are kept, nothing after it happens).  `liftBackend`
embeds the total backend into the fallible one, and the two models agree
on exception-free backends (`compare_pdf_pages_exc_lift` below). -/

structure FallibleBackend where
  convertFromPath : String → Except String (List Img)
  convertRGBAdata : List Nat → Except String (List Nat)
  resizeData : Img → Nat → Nat → Except String (List Nat)
  pixelmatch : Img → Img → Except String (Nat × List Nat)
  compositeData : Img → Img → Except String (List Nat)
  saveResult : String → Img → Except String Unit

/-- Fallible `img.convert("RGBA")`. -/
def Img.convertRGBAF (B : FallibleBackend) (img : Img) : Except String Img :=
  (B.convertRGBAdata img.data).map
    (fun d => ⟨img.width, img.height, "RGBA", d⟩)

/-- Fallible `img.resize((w, h), Image.LANCZOS)`. -/
def Img.resizeF (B : FallibleBackend) (img : Img) (w h : Nat) :
    Except String Img :=
  (B.resizeData img w h).map (fun d => ⟨w, h, img.mode, d⟩)

/-- Fallible `Image.alpha_composite(a, b)`. -/
def alpha_compositeF (B : FallibleBackend) (a b : Img) : Except String Img :=
  (B.compositeData a b).map (fun d => ⟨a.width, a.height, "RGBA", d⟩)

/-- The tail of a both-present iteration, from the `pixelmatch` call on:
`mismatch = pixelmatch(img1, img2, diff_img, threshold=0.1)`, then, when
the count is positive, `alpha_composite`, `save`, and the found-pixels
print.  Each call may raise, aborting the iteration there; `szLogs` is
the size-mismatch line already printed before this point. -/
def pageStepDiff (B : FallibleBackend) (out : String) (i : Nat) (a b : Img)
    (szLogs : List String) : RunOut :=
  match B.pixelmatch a b with
  | .error e => ⟨[], szLogs, [(i, a, b)], .error e⟩
  | .ok (m, diffData) =>
    let diff : Img := ⟨a.width, a.height, "RGBA", diffData⟩
    if 0 < m then
      match alpha_compositeF B a diff with
      | .error e => ⟨[], szLogs, [(i, a, b)], .error e⟩
      | .ok h =>
        match B.saveResult (diffPath out i) h with
        | .error e => ⟨[], szLogs, [(i, a, b)], .error e⟩
        | .ok _ =>
          ⟨[.save (diffPath out i) h], szLogs ++ [foundMsg i m],
           [(i, a, b)], .ok true⟩
    else ⟨[], szLogs, [(i, a, b)], .ok false⟩

/-- One iteration of the comparison loop in the fallible model, in source
order: the missing-page branch attempts the save and then prints; the
both-present branch converts both images, prints and resizes on a size
mismatch, then runs the pixel diff.  The `result` is the iteration's
`diff_detected` contribution, or the exception it raised; `events`,
`logs` and `calls` are the effects performed before any raise. -/
def pageStep (B : FallibleBackend) (out : String) (i : Nat) :
    Option Img × Option Img → RunOut
  | (none, none) =>
    ⟨[], [], [], .error "AttributeError: NoneType object has no attribute save"⟩
  | (some img1, none) =>
    match B.saveResult (diffPath out i) img1 with
    | .error e => ⟨[], [], [], .error e⟩
    | .ok _ => ⟨[.save (diffPath out i) img1], [missingMsg i], [], .ok false⟩
  | (none, some img2) =>
    match B.saveResult (diffPath out i) img2 with
    | .error e => ⟨[], [], [], .error e⟩
    | .ok _ => ⟨[.save (diffPath out i) img2], [missingMsg i], [], .ok false⟩
  | (some img1, some img2) =>
    match Img.convertRGBAF B img1 with
    | .error e => ⟨[], [], [], .error e⟩
    | .ok a =>
      match Img.convertRGBAF B img2 with
      | .error e => ⟨[], [], [], .error e⟩
      | .ok b0 =>
        if a.size ≠ b0.size then
          match Img.resizeF B b0 a.width a.height with
          | .error e => ⟨[], [sizeMismatchMsg i a b0], [], .error e⟩
          | .ok b => pageStepDiff B out i a b [sizeMismatchMsg i a b0]
        else pageStepDiff B out i a b0 []

/-- The comparison loop in the fallible model: iterations run in order;
the first exception aborts the loop, keeping the effects performed so
far and making the exception the loop's outcome. -/
def comparePagesF (B : FallibleBackend) (out : String) :
    Nat → List (Option Img × Option Img) → RunOut
  | _, [] => ⟨[], [], [], .ok false⟩
  | i, p :: rest =>
    let s := pageStep B out i p
    match s.result with
    | .error e => ⟨s.events, s.logs, s.calls, .error e⟩
    | .ok fl =>
      let r := comparePagesF B out (i + 1) rest
      ⟨s.events ++ r.events, s.logs ++ r.logs, s.calls ++ r.calls,
       r.result.map (fun f => fl || f)⟩

/-- `compare_pdf_pages` over the fallible backend: identical structure to
`compare_pdf_pages`, with every library call able to raise. -/
def compare_pdf_pages_exc (B : FallibleBackend) (file1 file2 : String)
    (output_dir : String := "diff_results") : RunOut :=
  match B.convertFromPath file1 with
  | .error e => ⟨[], [], [], .error e⟩
  | .ok images1 =>
    match B.convertFromPath file2 with
    | .error e => ⟨[], [], [], .error e⟩
    | .ok images2 =>
      let countFlag := images1.length ≠ images2.length
      let warn :=
        if images1.length ≠ images2.length then
          [warningMsg images1.length images2.length]
        else []
      let r := comparePagesF B output_dir 0 (zip_longest images1 images2)
      ⟨FsEvent.mkdirOutput output_dir :: r.events,
       warn ++ r.logs,
       r.calls,
       r.result.map (fun f => countFlag || f)⟩

/-- An exception-free fallible backend built from a total one: every
image-library call succeeds. -/
def liftBackend (B : Backend) : FallibleBackend where
  convertFromPath := B.convertFromPath
  convertRGBAdata := fun d => .ok (B.convertRGBAdata d)
  resizeData := fun img w h => .ok (B.resizeData img w h)
  pixelmatch := fun a b => .ok (B.pixelmatchCount a b, B.pixelmatchDiffData a b)
  compositeData := fun a b => .ok (B.compositeData a b)
  saveResult := fun _ _ => .ok ()

/-- A concrete fallible backend used to witness C9: known paths
rasterize as in `testBackend`, the pixel operations succeed, but saving
to `diff_page_2.png` fails with a disk-full I/O error. -/
def testFBackend : FallibleBackend where
  convertFromPath := fun path =>
    if path = "a.pdf" then .ok [testImg 10 10 1]
    else if path = "b.pdf" then .ok [testImg 10 10 1, testImg 10 10 2]
    else .error ("not found: " ++ path)
  convertRGBAdata := fun d => .ok d
  resizeData := fun img _ _ => .ok img.data
  pixelmatch := fun a b => .ok (if a.data = b.data then 0 else 7, [9])
  compositeData := fun a b => .ok (a.data ++ b.data)
  saveResult := fun path _ =>
    if path = "out/diff_page_2.png" then .error "disk full" else .ok ()

/-! ### Helper lemmas about `zip_longest` -/

theorem zip_longest_length {α β : Type} :
    ∀ (xs : List α) (ys : List β),
      (zip_longest xs ys).length = max xs.length ys.length
  | [], ys => by simp [zip_longest]
  | x :: xs, [] => by
    simp [zip_longest, zip_longest_length xs ([] : List β)]
  | x :: xs, y :: ys => by
    simp [zip_longest, zip_longest_length xs ys]
    omega

theorem zip_longest_ne_nn {α β : Type} :
    ∀ (xs : List α) (ys : List β), (none, none) ∉ zip_longest xs ys
  | [], ys => by simp [zip_longest]
  | x :: xs, [] => by
    simp [zip_longest]
    exact zip_longest_ne_nn xs ([] : List β)
  | x :: xs, y :: ys => by
    simp [zip_longest]
    exact zip_longest_ne_nn xs ys

theorem zip_longest_eq_length_both_some {α β : Type} :
    ∀ (xs : List α) (ys : List β), xs.length = ys.length →
      ∀ p ∈ zip_longest xs ys, ∃ a b, p = (some a, some b)
  | [], [], _ => by simp [zip_longest]
  | [], y :: ys, h => by simp at h
  | x :: xs, [], h => by simp at h
  | x :: xs, y :: ys, h => by
    intro p hp
    simp [zip_longest] at hp
    rcases hp with hp | hp
    · exact ⟨x, y, hp⟩
    · exact zip_longest_eq_length_both_some xs ys (by simpa using h) p hp

/-! ### Helper lemmas about the comparison loop -/

/-- The loop's boolean contribution is exactly "some processed pair had a
positive pixelmatch count"; a pair with a missing side does not, by
itself, set the flag. -/
theorem comparePages_flag (B : Backend) (out : String) :
    ∀ (pairs : List (Option Img × Option Img)) (i : Nat) (f : Bool),
      (comparePages B out i pairs).result = .ok f →
      (f = true ↔ ∃ p ∈ pairs, 0 < pageMismatch B p)
  | [], i, f, h => by
    simp [comparePages] at h
    simp [← h]
  | (none, none) :: rest, i, f, h => by
    simp [comparePages] at h
  | (some img1, none) :: rest, i, f, h => by
    simp only [comparePages] at h
    have ih := comparePages_flag B out rest (i + 1) f h
    simp [pageMismatch, ih]
  | (none, some img2) :: rest, i, f, h => by
    simp only [comparePages] at h
    have ih := comparePages_flag B out rest (i + 1) f h
    simp [pageMismatch, ih]
  | (some img1, some img2) :: rest, i, f, h => by
    simp only [comparePages] at h
    split at h
    · rcases hr : (comparePages B out (i + 1) rest).result with e | f0
      · simp [hr, Except.map] at h
      · simp only [hr, Except.map] at h
        cases h
        simp [pageMismatch]
        left
        assumption
    · rename_i hpos
      have ih := comparePages_flag B out rest (i + 1) f h
      have hm : ¬ 0 < pageMismatch B (some img1, some img2) := by
        simpa [pageMismatch] using hpos
      simp only [List.mem_cons, ih]
      constructor
      · rintro ⟨p, hp, hpos⟩
        exact ⟨p, Or.inr hp, hpos⟩
      · rintro ⟨p, hp | hp, hpos⟩
        · exact absurd (hp ▸ hpos) hm
        · exact ⟨p, hp, hpos⟩

/-- Every filesystem event emitted inside the loop is a save; the loop
never creates directories or performs other effects. -/
theorem comparePages_events_save (B : Backend) (out : String) :
    ∀ (pairs : List (Option Img × Option Img)) (i : Nat),
      ∀ e ∈ (comparePages B out i pairs).events, ∃ q img, e = .save q img
  | [], i => by simp [comparePages]
  | (none, none) :: rest, i => by simp [comparePages]
  | (some img1, none) :: rest, i => by
    intro e he
    simp only [comparePages] at he
    rcases List.mem_cons.1 he with h | h
    · exact ⟨_, _, h⟩
    · exact comparePages_events_save B out rest (i + 1) e h
  | (none, some img2) :: rest, i => by
    intro e he
    simp only [comparePages] at he
    rcases List.mem_cons.1 he with h | h
    · exact ⟨_, _, h⟩
    · exact comparePages_events_save B out rest (i + 1) e h
  | (some img1, some img2) :: rest, i => by
    intro e he
    simp only [comparePages] at he
    split at he
    · rcases List.mem_cons.1 he with h | h
      · exact ⟨_, _, h⟩
      · exact comparePages_events_save B out rest (i + 1) e h
    · exact comparePages_events_save B out rest (i + 1) e he

/-- Soundness of the recorded pixelmatch invocations: every call belongs
to a fully present pair, its first argument is exactly the RGBA conversion
of the first page (never resized), and its second argument is the RGBA
conversion of the second page passed through the conditional resize. -/
theorem comparePages_calls (B : Backend) (out : String) :
    ∀ (pairs : List (Option Img × Option Img)) (i j : Nat) (a b : Img),
      (j, a, b) ∈ (comparePages B out i pairs).calls →
      ∃ img1 img2, i ≤ j ∧ pairs.get? (j - i) = some (some img1, some img2) ∧
        a = Img.convertRGBA B img1 ∧
        b = fitSecond B a (Img.convertRGBA B img2)
  | [], i, j, a, b => by simp [comparePages]
  | (none, none) :: rest, i, j, a, b => by simp [comparePages]
  | (some img1, none) :: rest, i, j, a, b => by
    intro hm
    simp only [comparePages] at hm
    obtain ⟨i1, i2, hij, hget, ha, hb⟩ :=
      comparePages_calls B out rest (i + 1) j a b hm
    refine ⟨i1, i2, le_trans (Nat.le_succ i) hij, ?_, ha, hb⟩
    have hsub : j - i = (j - (i + 1)) + 1 := by omega
    rw [hsub]
    simpa using hget
  | (none, some img2) :: rest, i, j, a, b => by
    intro hm
    simp only [comparePages] at hm
    obtain ⟨i1, i2, hij, hget, ha, hb⟩ :=
      comparePages_calls B out rest (i + 1) j a b hm
    refine ⟨i1, i2, le_trans (Nat.le_succ i) hij, ?_, ha, hb⟩
    have hsub : j - i = (j - (i + 1)) + 1 := by omega
    rw [hsub]
    simpa using hget
  | (some img1, some img2) :: rest, i, j, a, b => by
    intro hm
    have hm2 : (j, a, b) = (i, Img.convertRGBA B img1,
        fitSecond B (Img.convertRGBA B img1) (Img.convertRGBA B img2)) ∨
        (j, a, b) ∈ (comparePages B out (i + 1) rest).calls := by
      simp only [comparePages] at hm
      split at hm
      · exact List.mem_cons.1 hm
      · exact List.mem_cons.1 hm
    rcases hm2 with h | h
    · simp only [Prod.mk.injEq] at h
      obtain ⟨rfl, rfl, rfl⟩ := h
      exact ⟨img1, img2, le_refl j, by simp, rfl, rfl⟩
    · obtain ⟨i1, i2, hij, hget, ha, hb⟩ :=
        comparePages_calls B out rest (i + 1) j a b h
      refine ⟨i1, i2, le_trans (Nat.le_succ i) hij, ?_, ha, hb⟩
      have hsub : j - i = (j - (i + 1)) + 1 := by omega
      rw [hsub]
      simpa using hget

/-- A crash-free run of the loop performs exactly the expected save
events, in page order. -/
theorem comparePages_events_eq (B : Backend) (out : String) :
    ∀ (pairs : List (Option Img × Option Img)) (i : Nat),
      (none, none) ∉ pairs →
      (comparePages B out i pairs).events = expectedEvents B out i pairs
  | [], i, _ => by simp [comparePages, expectedEvents]
  | (none, none) :: rest, i, hnn => by simp at hnn
  | (some img1, none) :: rest, i, hnn => by
    have ih := comparePages_events_eq B out rest (i + 1)
      (fun hc => hnn (List.mem_cons_of_mem _ hc))
    simp only [comparePages, expectedEvents, pageNonIdentical, pageMissing,
      savedImage]
    simp [ih]
  | (none, some img2) :: rest, i, hnn => by
    have ih := comparePages_events_eq B out rest (i + 1)
      (fun hc => hnn (List.mem_cons_of_mem _ hc))
    simp only [comparePages, expectedEvents, pageNonIdentical, pageMissing,
      savedImage]
    simp [ih]
  | (some img1, some img2) :: rest, i, hnn => by
    have ih := comparePages_events_eq B out rest (i + 1)
      (fun hc => hnn (List.mem_cons_of_mem _ hc))
    simp only [comparePages]
    split
    · rename_i hpos
      simp only [expectedEvents, pageNonIdentical, pageMissing, pageMismatch,
        savedImage, Bool.false_or, decide_eq_true_eq]
      rw [if_pos hpos]
      simp [ih]
    · rename_i hpos
      simp only [expectedEvents, pageNonIdentical, pageMissing, pageMismatch,
        savedImage, Bool.false_or, decide_eq_true_eq]
      rw [if_neg hpos]
      exact ih

/-- Membership in the expected save events: exactly one save per
non-identical page, at that page's `diff_page_{n+1}.png` path, of that
page's saved image. -/
theorem expectedEvents_save_mem (B : Backend) (out : String) :
    ∀ (pairs : List (Option Img × Option Img)) (i : Nat) (path : String)
      (img : Img),
      FsEvent.save path img ∈ expectedEvents B out i pairs ↔
        ∃ n p, pairs.get? n = some p ∧ pageNonIdentical B p = true ∧
          path = diffPath out (i + n) ∧ img = savedImage B p := by
  intro pairs
  induction pairs with
  | nil => intro i path img; simp [expectedEvents]
  | cons p rest ih =>
    intro i path img
    by_cases hp : pageNonIdentical B p = true
    · simp only [expectedEvents, if_pos hp, List.mem_cons]
      constructor
      · rintro (h | h)
        · cases h
          exact ⟨0, p, by simp, hp, by simp, rfl⟩
        · obtain ⟨n, p0, hget, hni, hpath, himg⟩ := (ih (i + 1) path img).1 h
          refine ⟨n + 1, p0, by simpa using hget, hni, ?_, himg⟩
          have harith : i + 1 + n = i + (n + 1) := by omega
          rw [← harith]
          exact hpath
      · rintro ⟨n, p0, hget, hni, hpath, himg⟩
        cases n with
        | zero =>
          simp at hget
          subst hget
          subst hpath
          subst himg
          left
          simp
        | succ n =>
          right
          refine (ih (i + 1) path img).2 ⟨n, p0, by simpa using hget, hni, ?_, himg⟩
          have harith : i + 1 + n = i + (n + 1) := by omega
          rw [harith]
          exact hpath
    · simp only [expectedEvents, if_neg hp]
      rw [ih (i + 1) path img]
      constructor
      · rintro ⟨n, p0, hget, hni, hpath, himg⟩
        refine ⟨n + 1, p0, by simpa using hget, hni, ?_, himg⟩
        have harith : i + 1 + n = i + (n + 1) := by omega
        rw [← harith]
        exact hpath
      · rintro ⟨n, p0, hget, hni, hpath, himg⟩
        cases n with
        | zero =>
          simp at hget
          subst hget
          exact absurd hni hp
        | succ n =>
          refine ⟨n, p0, by simpa using hget, hni, ?_, himg⟩
          have harith : i + 1 + n = i + (n + 1) := by omega
          rw [harith]
          exact hpath

/-- The "Page {n+1}: Missing in one of the PDFs." line is printed for
every pair with a missing side. -/
theorem comparePages_missing_log (B : Backend) (out : String) :
    ∀ (pairs : List (Option Img × Option Img)) (i n : Nat)
      (p : Option Img × Option Img),
      (none, none) ∉ pairs →
      pairs.get? n = some p → pageMissing p = true →
      missingMsg (i + n) ∈ (comparePages B out i pairs).logs
  | [], i, n, p, _, hget, _ => by simp at hget
  | (none, none) :: rest, i, n, p, hnn, hget, hmiss => by simp at hnn
  | (some img1, none) :: rest, i, n, p, hnn, hget, hmiss => by
    cases n with
    | zero => simp [comparePages]
    | succ n =>
      have ih := comparePages_missing_log B out rest (i + 1) n p
        (fun hc => hnn (List.mem_cons_of_mem _ hc)) (by simpa using hget) hmiss
      have harith : i + 1 + n = i + (n + 1) := by omega
      rw [harith] at ih
      simp only [comparePages, List.mem_cons]
      right
      exact ih
  | (none, some img2) :: rest, i, n, p, hnn, hget, hmiss => by
    cases n with
    | zero => simp [comparePages]
    | succ n =>
      have ih := comparePages_missing_log B out rest (i + 1) n p
        (fun hc => hnn (List.mem_cons_of_mem _ hc)) (by simpa using hget) hmiss
      have harith : i + 1 + n = i + (n + 1) := by omega
      rw [harith] at ih
      simp only [comparePages, List.mem_cons]
      right
      exact ih
  | (some img1, some img2) :: rest, i, n, p, hnn, hget, hmiss => by
    cases n with
    | zero =>
      simp at hget
      subst hget
      simp [pageMissing] at hmiss
    | succ n =>
      have ih := comparePages_missing_log B out rest (i + 1) n p
        (fun hc => hnn (List.mem_cons_of_mem _ hc)) (by simpa using hget) hmiss
      have harith : i + 1 + n = i + (n + 1) := by omega
      rw [harith] at ih
      simp only [comparePages]
      split
      · simp only [List.mem_append, List.mem_cons]
        right
        right
        exact ih
      · simp only [List.mem_append]
        right
        exact ih

/-- The conditional resize always yields an image with the first
operand's pixel dimensions. -/
theorem fitSecond_size (B : Backend) (a b : Img) :
    (fitSecond B a b).size = a.size := by
  unfold fitSecond
  split
  · simp [Img.resize, Img.size]
  · rename_i h
    exact (not_not.1 h).symm

/-- The conditional resize preserves the pixel-format mode. -/
theorem fitSecond_mode (B : Backend) (a b : Img) :
    (fitSecond B a b).mode = b.mode := by
  unfold fitSecond
  split <;> simp [Img.resize]

/-! ### Helper lemmas about the fallible model -/

theorem exceptMap_false_or (x : Except String Bool) :
    x.map (fun f => false || f) = x := by
  cases x <;> simp [Except.map]

theorem exceptMap_id (x : Except String Bool) :
    x.map (fun f => f) = x := by
  cases x <;> simp [Except.map]

theorem exceptMap_true_or (x : Except String Bool) :
    x.map (fun f => true || f) = x.map (fun _ => true) := by
  cases x <;> simp [Except.map]

/-- If every iteration before page `n` completes without raising and the
iteration at page `n` raises `e`, then `e` is the outcome of the whole
loop: the exception propagates uncaught. -/
theorem comparePagesF_error_propagates (B : FallibleBackend) (out : String) :
    ∀ (pairs : List (Option Img × Option Img)) (i n : Nat)
      (p : Option Img × Option Img) (e : String),
      pairs.get? n = some p →
      (∀ k q, k < n → pairs.get? k = some q →
        ∃ fl, (pageStep B out (i + k) q).result = .ok fl) →
      (pageStep B out (i + n) p).result = .error e →
      (comparePagesF B out i pairs).result = .error e
  | [], i, n, p, e, hget, _, _ => by simp at hget
  | hd :: rest, i, 0, p, e, hget, hprev, herr => by
    simp at hget
    subst hget
    rw [Nat.add_zero] at herr
    simp [comparePagesF, herr]
  | hd :: rest, i, n + 1, p, e, hget, hprev, herr => by
    have h0 := hprev 0 hd (Nat.succ_pos n) (by simp)
    rw [Nat.add_zero] at h0
    obtain ⟨fl, hfl⟩ := h0
    have ih := comparePagesF_error_propagates B out rest (i + 1) n p e
      (by simpa using hget)
      (fun k q hk hq => by
        have htail := hprev (k + 1) q (Nat.succ_lt_succ hk) (by simpa using hq)
        have ha2 : i + (k + 1) = i + 1 + k := by omega
        rwa [ha2] at htail)
      (by
        have ha3 : i + 1 + n = i + (n + 1) := by omega
        rw [ha3]
        exact herr)
    simp [comparePagesF, hfl, ih, Except.map]

/-- Once an iteration raises, no later page is processed: extending the
input beyond the failing page leaves the run unchanged (no recovery, no
retry). -/
theorem comparePagesF_error_stops (B : FallibleBackend) (out : String) :
    ∀ (pairs more : List (Option Img × Option Img)) (i : Nat) (e : String),
      (comparePagesF B out i pairs).result = .error e →
      comparePagesF B out i (pairs ++ more) = comparePagesF B out i pairs
  | [], more, i, e, h => by simp [comparePagesF] at h
  | hd :: rest, more, i, e, h => by
    rcases hs : (pageStep B out i hd).result with e0 | fl
    · simp [comparePagesF, hs]
    · simp only [comparePagesF, hs] at h
      rcases hr : (comparePagesF B out (i + 1) rest).result with e1 | f1
      · have ih := comparePagesF_error_stops B out rest more (i + 1) e1 hr
        simp [comparePagesF, hs, ih]
      · rw [hr] at h
        simp [Except.map] at h

theorem convertRGBAF_lift (B : Backend) (img : Img) :
    Img.convertRGBAF (liftBackend B) img = .ok (Img.convertRGBA B img) := rfl

theorem resizeF_lift (B : Backend) (img : Img) (w h : Nat) :
    Img.resizeF (liftBackend B) img w h = .ok (Img.resize B img w h) := rfl

theorem alpha_compositeF_lift (B : Backend) (a b : Img) :
    alpha_compositeF (liftBackend B) a b = .ok (alpha_composite B a b) := rfl

theorem saveResult_lift (B : Backend) (p : String) (img : Img) :
    (liftBackend B).saveResult p img = .ok () := rfl

theorem convertFromPath_lift (B : Backend) :
    (liftBackend B).convertFromPath = B.convertFromPath := rfl

/-- Over an exception-free backend the tail of a both-present iteration
reduces to the total model's behaviour. -/
theorem pageStepDiff_lift (B : Backend) (out : String) (i : Nat) (a b : Img)
    (szLogs : List String) :
    pageStepDiff (liftBackend B) out i a b szLogs =
      if 0 < B.pixelmatchCount a b then
        ⟨[.save (diffPath out i) (alpha_composite B a (pixelDiffImg B a b))],
         szLogs ++ [foundMsg i (B.pixelmatchCount a b)], [(i, a, b)], .ok true⟩
      else ⟨[], szLogs, [(i, a, b)], .ok false⟩ := by
  simp [pageStepDiff, liftBackend, alpha_compositeF, alpha_composite,
    pixelDiffImg, Except.map]

/-- On an exception-free backend the fallible loop coincides with the
total-model loop: the total model is the no-exception projection of the
fallible one. -/
theorem comparePagesF_lift (B : Backend) (out : String) :
    ∀ (pairs : List (Option Img × Option Img)) (i : Nat),
      comparePagesF (liftBackend B) out i pairs = comparePages B out i pairs
  | [], i => rfl
  | (none, none) :: rest, i => by
    simp [comparePagesF, pageStep, comparePages]
  | (some img1, none) :: rest, i => by
    have ih := comparePagesF_lift B out rest (i + 1)
    simp [comparePagesF, pageStep, saveResult_lift, comparePages, ih,
      exceptMap_false_or, exceptMap_id]
  | (none, some img2) :: rest, i => by
    have ih := comparePagesF_lift B out rest (i + 1)
    simp [comparePagesF, pageStep, saveResult_lift, comparePages, ih,
      exceptMap_false_or, exceptMap_id]
  | (some img1, some img2) :: rest, i => by
    have ih := comparePagesF_lift B out rest (i + 1)
    by_cases hsz : (Img.convertRGBA B img1).size = (Img.convertRGBA B img2).size
    · have hfit : fitSecond B (Img.convertRGBA B img1)
          (Img.convertRGBA B img2) = Img.convertRGBA B img2 := by
        simp [fitSecond, hsz]
      by_cases hm : 0 < B.pixelmatchCount (Img.convertRGBA B img1)
          (Img.convertRGBA B img2)
      · simp [comparePagesF, pageStep, convertRGBAF_lift, hsz,
          pageStepDiff_lift, comparePages, hfit, hm, ih, exceptMap_true_or,
          exceptMap_id]
      · simp [comparePagesF, pageStep, convertRGBAF_lift, hsz,
          pageStepDiff_lift, comparePages, hfit, hm, ih, exceptMap_false_or,
          exceptMap_id]
    · have hfit : fitSecond B (Img.convertRGBA B img1)
          (Img.convertRGBA B img2) =
          Img.resize B (Img.convertRGBA B img2)
            (Img.convertRGBA B img1).width
            (Img.convertRGBA B img1).height := by
        simp [fitSecond, hsz]
      by_cases hm : 0 < B.pixelmatchCount (Img.convertRGBA B img1)
          (Img.resize B (Img.convertRGBA B img2)
            (Img.convertRGBA B img1).width
            (Img.convertRGBA B img1).height)
      · simp [comparePagesF, pageStep, convertRGBAF_lift, resizeF_lift, hsz,
          pageStepDiff_lift, comparePages, hfit, hm, ih, exceptMap_true_or,
          exceptMap_id]
      · simp [comparePagesF, pageStep, convertRGBAF_lift, resizeF_lift, hsz,
          pageStepDiff_lift, comparePages, hfit, hm, ih, exceptMap_false_or,
          exceptMap_id]

/-- On an exception-free backend the fallible run coincides with the
total-model run. -/
theorem compare_pdf_pages_exc_lift (B : Backend) (f1 f2 out : String) :
    compare_pdf_pages_exc (liftBackend B) f1 f2 out =
      compare_pdf_pages B f1 f2 out := by
  rcases hc1 : B.convertFromPath f1 with e | imgs1
  · simp [compare_pdf_pages_exc, compare_pdf_pages, convertFromPath_lift, hc1]
  rcases hc2 : B.convertFromPath f2 with e | imgs2
  · simp [compare_pdf_pages_exc, compare_pdf_pages, convertFromPath_lift,
      hc1, hc2]
  simp [compare_pdf_pages_exc, compare_pdf_pages, convertFromPath_lift,
    hc1, hc2, comparePagesF_lift]

/-! ### Claim theorems -/

/-- C1: `compare_pdf_pages` returns true if and only if some page was
non-identical: it returns true when the page counts differ, when some
page index has a counterpart missing, or when some paired page has a
pixelmatch mismatch count > 0, and returns false only when both documents
have the same page count and every page pair diffs with zero mismatched
pixels. -/
theorem compare_true_iff_some_page_nonidentical
    (B : Backend) (f1 f2 out : String) (imgs1 imgs2 : List Img) (d : Bool)
    (h1 : B.convertFromPath f1 = .ok imgs1)
    (h2 : B.convertFromPath f2 = .ok imgs2)
    (hr : (compare_pdf_pages B f1 f2 out).result = .ok d) :
    d = true ↔
      (imgs1.length ≠ imgs2.length ∨
       (∃ p ∈ zip_longest imgs1 imgs2, pageMissing p = true) ∨
       (∃ p ∈ zip_longest imgs1 imgs2, 0 < pageMismatch B p)) := by
  simp only [compare_pdf_pages, h1, h2] at hr
  rcases hm : (comparePages B out 0 (zip_longest imgs1 imgs2)).result with e | f
  · rw [hm] at hr
    simp [Except.map] at hr
  · rw [hm] at hr
    simp only [Except.map, Except.ok.injEq] at hr
    have hflag := comparePages_flag B out (zip_longest imgs1 imgs2) 0 f hm
    by_cases hlen : imgs1.length = imgs2.length
    · have hnomiss : ¬ ∃ p ∈ zip_longest imgs1 imgs2, pageMissing p = true := by
        rintro ⟨p, hp, hpm⟩
        obtain ⟨a, b, rfl⟩ := zip_longest_eq_length_both_some imgs1 imgs2 hlen p hp
        simp [pageMissing] at hpm
      rw [← hr]
      simp [hlen, hnomiss, hflag]
    · rw [← hr]
      simp [hlen]

/-- C1 witness: a concrete run (a one-page PDF against a two-page PDF)
whose result is true, matching the disjunction. -/
theorem compare_true_iff_some_page_nonidentical_witness :
    (true = true ↔
      (([testImg 10 10 1] : List Img).length ≠
         ([testImg 10 10 1, testImg 10 10 2] : List Img).length ∨
       (∃ p ∈ zip_longest [testImg 10 10 1] [testImg 10 10 1, testImg 10 10 2],
          pageMissing p = true) ∨
       (∃ p ∈ zip_longest [testImg 10 10 1] [testImg 10 10 1, testImg 10 10 2],
          0 < pageMismatch testBackend p))) :=
  compare_true_iff_some_page_nonidentical testBackend "a.pdf" "b.pdf" "out"
    [testImg 10 10 1] [testImg 10 10 1, testImg 10 10 2] true
    (by decide) (by decide) (by decide)

/-- C2 counterexample: the claim says processing proceeds through
"shorter-document-based pairing", i.e. as many positional pairs as the
shorter document has pages.  On a 1-page versus 2-page input the run
pairs over the longer document (`zip_longest`): it processes and logs
page 2, which does not exist in the shorter document, and the pair list
has length 2 ≠ min 1 2. -/
theorem count_mismatch_pairing_counterexample :
    ("Page 2: Missing in one of the PDFs." ∈
        (compare_pdf_pages testBackend "a.pdf" "b.pdf" "out").logs) ∧
    (zip_longest [testImg 10 10 1] [testImg 10 10 1, testImg 10 10 2]).length ≠
      min ([testImg 10 10 1] : List Img).length
        ([testImg 10 10 1, testImg 10 10 2] : List Img).length := by
  decide

/-- C2 (amended): when the two documents have different page counts,
`compare_pdf_pages` logs a warning, marks the overall result as
differences found, and continues processing through positional zipping
over the longer document (`zip_longest`), treating absent pages as
missing. -/
theorem count_mismatch_warns_and_zips_longest
    (B : Backend) (f1 f2 out : String) (imgs1 imgs2 : List Img) (d : Bool)
    (h1 : B.convertFromPath f1 = .ok imgs1)
    (h2 : B.convertFromPath f2 = .ok imgs2)
    (hr : (compare_pdf_pages B f1 f2 out).result = .ok d)
    (hlen : imgs1.length ≠ imgs2.length) :
    warningMsg imgs1.length imgs2.length ∈
      (compare_pdf_pages B f1 f2 out).logs ∧
    d = true ∧
    (zip_longest imgs1 imgs2).length = max imgs1.length imgs2.length := by
  refine ⟨?_, ?_, zip_longest_length imgs1 imgs2⟩
  · simp only [compare_pdf_pages, h1, h2, if_pos hlen]
    simp
  · simp only [compare_pdf_pages, h1, h2] at hr
    rcases hm : (comparePages B out 0 (zip_longest imgs1 imgs2)).result with e | f
    · rw [hm] at hr
      simp [Except.map] at hr
    · rw [hm] at hr
      simp only [Except.map, Except.ok.injEq] at hr
      rw [← hr]
      simp [hlen]

/-- C2 witness: the concrete 1-page vs 2-page run warns, returns true,
and pairs over the longer document. -/
theorem count_mismatch_warns_and_zips_longest_witness :
    (warningMsg 1 2 ∈ (compare_pdf_pages testBackend "a.pdf" "b.pdf" "out").logs ∧
     true = true ∧
     (zip_longest [testImg 10 10 1] [testImg 10 10 1, testImg 10 10 2]).length =
       max ([testImg 10 10 1] : List Img).length
         ([testImg 10 10 1, testImg 10 10 2] : List Img).length) :=
  count_mismatch_warns_and_zips_longest testBackend "a.pdf" "b.pdf" "out"
    [testImg 10 10 1] [testImg 10 10 1, testImg 10 10 2] true
    (by decide) (by decide) (by decide) (by decide)

/-- C3: the filesystem trace of every run is either empty (rasterization
failed before any effect) or consists of the creation of the output
directory (`mkdir` with `parents=True`, creating missing parents)
followed exclusively by diff-image saves; in particular every save sits
at a strictly positive position, after the directory creation at
position 0, so the output directory exists before any diff image is
written. -/
theorem mkdir_precedes_every_save
    (B : Backend) (f1 f2 out : String) :
    ((compare_pdf_pages B f1 f2 out).events = [] ∨
      ∃ rest, (compare_pdf_pages B f1 f2 out).events =
          FsEvent.mkdirOutput out :: rest ∧
        ∀ e ∈ rest, ∃ p img, e = FsEvent.save p img) ∧
    ∀ n path img,
      (compare_pdf_pages B f1 f2 out).events.get? n =
        some (.save path img) →
      0 < n ∧ (compare_pdf_pages B f1 f2 out).events.get? 0 =
        some (.mkdirOutput out) := by
  rcases hc1 : B.convertFromPath f1 with e1 | imgs1
  · constructor
    · left
      simp [compare_pdf_pages, hc1]
    · intro n path img h
      simp [compare_pdf_pages, hc1] at h
  rcases hc2 : B.convertFromPath f2 with e2 | imgs2
  · constructor
    · left
      simp [compare_pdf_pages, hc1, hc2]
    · intro n path img h
      simp [compare_pdf_pages, hc1, hc2] at h
  constructor
  · right
    refine ⟨(comparePages B out 0 (zip_longest imgs1 imgs2)).events, ?_, ?_⟩
    · simp [compare_pdf_pages, hc1, hc2]
    · exact comparePages_events_save B out (zip_longest imgs1 imgs2) 0
  · intro n path img h
    simp only [compare_pdf_pages, hc1, hc2] at h ⊢
    cases n with
    | zero => simp at h
    | succ n => exact ⟨Nat.succ_pos n, by simp⟩

/-- C3 witness: in the concrete 1-page vs 2-page run the save of
`diff_page_2.png` sits at position 1, after the mkdir at position 0. -/
theorem mkdir_precedes_every_save_witness :
    0 < 1 ∧ (compare_pdf_pages testBackend "a.pdf" "b.pdf" "out").events.get? 0 =
      some (.mkdirOutput "out") :=
  (mkdir_precedes_every_save testBackend "a.pdf" "b.pdf" "out").2 1
    ("out/diff_page_2.png") (testImg 10 10 2) (by decide)

/-- C4: for every page index at which exactly one document has a page,
the run saves the existing image as `diff_page_{n+1}.png` in the output
directory, logs that the page is missing in one of the PDFs, and never
invokes the pixel diff for that index. -/
theorem missing_page_saved_logged_without_diff
    (B : Backend) (f1 f2 out : String) (imgs1 imgs2 : List Img)
    (n : Nat) (img : Img)
    (h1 : B.convertFromPath f1 = .ok imgs1)
    (h2 : B.convertFromPath f2 = .ok imgs2)
    (hp : (zip_longest imgs1 imgs2).get? n = some (some img, none) ∨
          (zip_longest imgs1 imgs2).get? n = some (none, some img)) :
    FsEvent.save (diffPath out n) img ∈
      (compare_pdf_pages B f1 f2 out).events ∧
    missingMsg n ∈ (compare_pdf_pages B f1 f2 out).logs ∧
    ∀ a b, (n, a, b) ∉ (compare_pdf_pages B f1 f2 out).calls := by
  have hnn := zip_longest_ne_nn imgs1 imgs2
  have hev := comparePages_events_eq B out (zip_longest imgs1 imgs2) 0 hnn
  refine ⟨?_, ?_, ?_⟩
  · simp only [compare_pdf_pages, h1, h2, List.mem_cons]
    right
    rw [hev, expectedEvents_save_mem]
    rcases hp with hp | hp
    · exact ⟨n, (some img, none), hp, by simp [pageNonIdentical, pageMissing],
        by simp, by simp [savedImage]⟩
    · exact ⟨n, (none, some img), hp, by simp [pageNonIdentical, pageMissing],
        by simp, by simp [savedImage]⟩
  · simp only [compare_pdf_pages, h1, h2, List.mem_append]
    right
    rcases hp with hp | hp
    · simpa using comparePages_missing_log B out (zip_longest imgs1 imgs2) 0 n
        (some img, none) hnn hp (by simp [pageMissing])
    · simpa using comparePages_missing_log B out (zip_longest imgs1 imgs2) 0 n
        (none, some img) hnn hp (by simp [pageMissing])
  · intro a b hc
    simp only [compare_pdf_pages, h1, h2] at hc
    obtain ⟨i1, i2, _, hget, _, _⟩ :=
      comparePages_calls B out (zip_longest imgs1 imgs2) 0 n a b hc
    simp only [Nat.sub_zero] at hget
    rcases hp with hp | hp <;> rw [hp] at hget <;> simp at hget

/-- C4 witness: in the concrete 1-page vs 2-page run, page index 1 exists
only in the second document; its image is saved, the missing line is
logged, and no pixelmatch call happens at index 1. -/
theorem missing_page_saved_logged_without_diff_witness :
    FsEvent.save (diffPath "out" 1) (testImg 10 10 2) ∈
      (compare_pdf_pages testBackend "a.pdf" "b.pdf" "out").events ∧
    missingMsg 1 ∈ (compare_pdf_pages testBackend "a.pdf" "b.pdf" "out").logs ∧
    ∀ a b, (1, a, b) ∉
      (compare_pdf_pages testBackend "a.pdf" "b.pdf" "out").calls :=
  missing_page_saved_logged_without_diff testBackend "a.pdf" "b.pdf" "out"
    [testImg 10 10 1] [testImg 10 10 1, testImg 10 10 2] 1 (testImg 10 10 2)
    (by decide) (by decide) (Or.inr (by decide))

/-- C5: every pixelmatch invocation receives two 4-channel RGBA images of
identical pixel dimensions: the first argument is exactly the RGBA
conversion of the first page (never resized), and the second is the RGBA
conversion of the second page, resized to the first's dimensions when the
sizes differ. -/
theorem pixelmatch_args_rgba_same_size
    (B : Backend) (f1 f2 out : String) (imgs1 imgs2 : List Img)
    (j : Nat) (a b : Img)
    (h1 : B.convertFromPath f1 = .ok imgs1)
    (h2 : B.convertFromPath f2 = .ok imgs2)
    (hc : (j, a, b) ∈ (compare_pdf_pages B f1 f2 out).calls) :
    ∃ img1 img2,
      (zip_longest imgs1 imgs2).get? j = some (some img1, some img2) ∧
      a = Img.convertRGBA B img1 ∧
      b = fitSecond B a (Img.convertRGBA B img2) ∧
      a.mode = "RGBA" ∧ b.mode = "RGBA" ∧ b.size = a.size := by
  simp only [compare_pdf_pages, h1, h2] at hc
  obtain ⟨img1, img2, _, hget, ha, hb⟩ :=
    comparePages_calls B out (zip_longest imgs1 imgs2) 0 j a b hc
  simp only [Nat.sub_zero] at hget
  refine ⟨img1, img2, hget, ha, hb, ?_, ?_, ?_⟩
  · rw [ha]
    rfl
  · rw [hb, fitSecond_mode]
    rfl
  · rw [hb, fitSecond_size]

/-- C5 witness: the concrete run of two single-page PDFs of different
pixel dimensions invokes pixelmatch once, on RGBA images of identical
size. -/
theorem pixelmatch_args_rgba_same_size_witness :
    ∃ img1 img2,
      (zip_longest [testImg 10 10 1] [testImg 20 10 3]).get? 0 =
        some (some img1, some img2) ∧
      Img.convertRGBA testBackend (testImg 10 10 1) =
        Img.convertRGBA testBackend img1 ∧
      fitSecond testBackend (Img.convertRGBA testBackend (testImg 10 10 1))
          (Img.convertRGBA testBackend (testImg 20 10 3)) =
        fitSecond testBackend (Img.convertRGBA testBackend (testImg 10 10 1))
          (Img.convertRGBA testBackend img2) ∧
      (Img.convertRGBA testBackend (testImg 10 10 1)).mode = "RGBA" ∧
      (fitSecond testBackend (Img.convertRGBA testBackend (testImg 10 10 1))
          (Img.convertRGBA testBackend (testImg 20 10 3))).mode = "RGBA" ∧
      (fitSecond testBackend (Img.convertRGBA testBackend (testImg 10 10 1))
          (Img.convertRGBA testBackend (testImg 20 10 3))).size =
        (Img.convertRGBA testBackend (testImg 10 10 1)).size := by
  obtain ⟨img1, img2, hget, ha, hb, hma, hmb, hsz⟩ :=
    pixelmatch_args_rgba_same_size testBackend "a.pdf" "c.pdf" "out"
      [testImg 10 10 1] [testImg 20 10 3] 0
      (Img.convertRGBA testBackend (testImg 10 10 1))
      (fitSecond testBackend (Img.convertRGBA testBackend (testImg 10 10 1))
        (Img.convertRGBA testBackend (testImg 20 10 3)))
      (by decide) (by decide) (by decide)
  exact ⟨img1, img2, hget, by rw [← ha], by rw [← hb, ha], hma, hmb, hsz⟩

/-- C6: the save events of a run are exactly one `diff_page_{n+1}.png`
per non-identical page (missing counterpart, or positive pixelmatch
count, in which case the saved image is the diff overlay
alpha-composited onto the first image); identical pages produce no file,
and apart from creating the output directory the run performs no other
filesystem effect. -/
theorem saves_exactly_nonidentical_pages
    (B : Backend) (f1 f2 out : String) (imgs1 imgs2 : List Img)
    (h1 : B.convertFromPath f1 = .ok imgs1)
    (h2 : B.convertFromPath f2 = .ok imgs2) :
    (compare_pdf_pages B f1 f2 out).events =
      FsEvent.mkdirOutput out ::
        expectedEvents B out 0 (zip_longest imgs1 imgs2) ∧
    ∀ path img,
      FsEvent.save path img ∈ (compare_pdf_pages B f1 f2 out).events ↔
        ∃ n p, (zip_longest imgs1 imgs2).get? n = some p ∧
          pageNonIdentical B p = true ∧ path = diffPath out n ∧
          img = savedImage B p := by
  have hnn := zip_longest_ne_nn imgs1 imgs2
  have hev := comparePages_events_eq B out (zip_longest imgs1 imgs2) 0 hnn
  constructor
  · simp only [compare_pdf_pages, h1, h2]
    rw [hev]
  · intro path img
    simp only [compare_pdf_pages, h1, h2, List.mem_cons]
    rw [hev]
    constructor
    · rintro (h | h)
      · cases h
      · simpa using (expectedEvents_save_mem B out
          (zip_longest imgs1 imgs2) 0 path img).1 h
    · intro h
      right
      rw [expectedEvents_save_mem]
      simpa using h

/-- C6 witness: the concrete 1-page vs 2-page run writes exactly
`diff_page_2.png` (page 1 is identical, page 2 is missing on one side)
after the mkdir. -/
theorem saves_exactly_nonidentical_pages_witness :
    ((compare_pdf_pages testBackend "a.pdf" "b.pdf" "out").events =
      FsEvent.mkdirOutput "out" ::
        expectedEvents testBackend "out" 0
          (zip_longest [testImg 10 10 1] [testImg 10 10 1, testImg 10 10 2]) ∧
    ∀ path img,
      FsEvent.save path img ∈
          (compare_pdf_pages testBackend "a.pdf" "b.pdf" "out").events ↔
        ∃ n p,
          (zip_longest [testImg 10 10 1]
              [testImg 10 10 1, testImg 10 10 2]).get? n = some p ∧
          pageNonIdentical testBackend p = true ∧ path = diffPath "out" n ∧
          img = savedImage testBackend p) :=
  saves_exactly_nonidentical_pages testBackend "a.pdf" "b.pdf" "out"
    [testImg 10 10 1] [testImg 10 10 1, testImg 10 10 2]
    (by decide) (by decide)

/-- C7: when `compare_pdf_pages` returns true the CLI prints
"❌ Differences found." and exits with code 1; when it returns false the
CLI prints "✅ No significant differences." and exits with code 0. -/
theorem cli_exit_code_matches_result
    (B : Backend) (pdf_a pdf_b out : String) (d : Bool)
    (h : (compare_pdf_pages B pdf_a pdf_b out).result = .ok d) :
    cliMain B pdf_a pdf_b out =
      .ok (compare_pdf_pages B pdf_a pdf_b out,
        (if d then "❌ Differences found."
         else "✅ No significant differences."),
        if d then 1 else 0) := by
  simp only [cliMain, h]
  cases d <;> simp

/-- C7 witness: the concrete differing run exits 1 with the failure
message. -/
theorem cli_exit_code_matches_result_witness :
    cliMain testBackend "a.pdf" "b.pdf" "out" =
      .ok (compare_pdf_pages testBackend "a.pdf" "b.pdf" "out",
        (if true then "❌ Differences found."
         else "✅ No significant differences."),
        if true then 1 else 0) :=
  cli_exit_code_matches_result testBackend "a.pdf" "b.pdf" "out" true
    (by decide)

/-- C8: `compare_pdf_pages` is deterministic — two runs on the same
inputs through the same backend produce the same filesystem events, the
same printed lines, the same pixelmatch invocations, and the same
result. -/
theorem compare_deterministic
    (B : Backend) (f1 f2 out : String) (r1 r2 : RunOut)
    (hrun1 : compare_pdf_pages B f1 f2 out = r1)
    (hrun2 : compare_pdf_pages B f1 f2 out = r2) :
    r1.events = r2.events ∧ r1.logs = r2.logs ∧
    r1.calls = r2.calls ∧ r1.result = r2.result := by
  subst hrun1
  subst hrun2
  exact ⟨rfl, rfl, rfl, rfl⟩

/-- C8 witness: two concrete runs on the same inputs coincide. -/
theorem compare_deterministic_witness :
    (compare_pdf_pages testBackend "a.pdf" "b.pdf" "out").events =
      (compare_pdf_pages testBackend "a.pdf" "b.pdf" "out").events ∧
    (compare_pdf_pages testBackend "a.pdf" "b.pdf" "out").logs =
      (compare_pdf_pages testBackend "a.pdf" "b.pdf" "out").logs ∧
    (compare_pdf_pages testBackend "a.pdf" "b.pdf" "out").calls =
      (compare_pdf_pages testBackend "a.pdf" "b.pdf" "out").calls ∧
    (compare_pdf_pages testBackend "a.pdf" "b.pdf" "out").result =
      (compare_pdf_pages testBackend "a.pdf" "b.pdf" "out").result :=
  compare_deterministic testBackend "a.pdf" "b.pdf" "out"
    (compare_pdf_pages testBackend "a.pdf" "b.pdf" "out")
    (compare_pdf_pages testBackend "a.pdf" "b.pdf" "out") rfl rfl

/-- C9: `compare_pdf_pages` contains no retry or exception-handling
logic.  In the model where every library call may raise: a failure of
either rasterization call becomes the run's outcome with no effects
performed; a failure raised by any image-library call of a page
iteration (RGBA conversion, resize, pixelmatch, alpha compositing, or a
save) propagates uncaught as the outcome of the whole run when the
earlier iterations completed; and once an iteration has raised, no
further page is processed (no partial recovery). -/
theorem library_error_propagates_fatally
    (B : FallibleBackend) (f1 f2 out : String) (e : String) :
    (B.convertFromPath f1 = .error e →
      compare_pdf_pages_exc B f1 f2 out = ⟨[], [], [], .error e⟩) ∧
    (∀ imgs1, B.convertFromPath f1 = .ok imgs1 →
      B.convertFromPath f2 = .error e →
      compare_pdf_pages_exc B f1 f2 out = ⟨[], [], [], .error e⟩) ∧
    (∀ imgs1 imgs2 n p,
      B.convertFromPath f1 = .ok imgs1 →
      B.convertFromPath f2 = .ok imgs2 →
      (zip_longest imgs1 imgs2).get? n = some p →
      (∀ k q, k < n → (zip_longest imgs1 imgs2).get? k = some q →
        ∃ fl, (pageStep B out k q).result = .ok fl) →
      (pageStep B out n p).result = .error e →
      (compare_pdf_pages_exc B f1 f2 out).result = .error e) ∧
    (∀ pairs more i,
      (comparePagesF B out i pairs).result = .error e →
      comparePagesF B out i (pairs ++ more) = comparePagesF B out i pairs) := by
  refine ⟨?_, ?_, ?_, ?_⟩
  · intro h
    simp [compare_pdf_pages_exc, h]
  · intro imgs1 ha hb
    simp [compare_pdf_pages_exc, ha, hb]
  · intro imgs1 imgs2 n p h1 h2 hget hprev herr
    have hloop := comparePagesF_error_propagates B out
      (zip_longest imgs1 imgs2) 0 n p e hget
      (fun k q hk hq => by simpa using hprev k q hk hq)
      (by simpa using herr)
    simp [compare_pdf_pages_exc, h1, h2, hloop, Except.map]
  · exact fun pairs more i h => comparePagesF_error_stops B out pairs more i e h

/-- C9 witness: a concrete PIL save failure (disk full when writing
`diff_page_2.png`) raised in the second page iteration is the outcome of
the whole run. -/
theorem library_error_propagates_fatally_witness :
    (compare_pdf_pages_exc testFBackend "a.pdf" "b.pdf" "out").result =
      .error "disk full" :=
  (library_error_propagates_fatally testFBackend "a.pdf" "b.pdf" "out"
      "disk full").2.2.1 [testImg 10 10 1] [testImg 10 10 1, testImg 10 10 2]
    1 (none, some (testImg 10 10 2)) (by decide) (by decide) (by decide)
    (by
      intro k q hk hq
      have hk0 : k = 0 := by omega
      subst hk0
      have h0 : (zip_longest [testImg 10 10 1]
          [testImg 10 10 1, testImg 10 10 2]).get? 0 =
          some (some (testImg 10 10 1), some (testImg 10 10 1)) := by decide
      rw [h0] at hq
      have hq2 := Option.some.inj hq
      rw [← hq2]
      exact ⟨false, by decide⟩)
    (by decide)

/-- C10: if rasterizing either input PDF fails, the run performs no
filesystem effect at all — the output directory is not created and no
diff file is written, because directory creation happens only after both
rasterization calls succeed. -/
theorem rasterize_error_no_filesystem_writes
    (B : Backend) (f1 f2 out : String) (e : String)
    (h : B.convertFromPath f1 = .error e ∨ B.convertFromPath f2 = .error e) :
    (compare_pdf_pages B f1 f2 out).events = [] := by
  rcases hc1 : B.convertFromPath f1 with e1 | imgs1
  · simp [compare_pdf_pages, hc1]
  · rcases h with h | h
    · rw [hc1] at h
      cases h
    · simp [compare_pdf_pages, hc1, h]

/-- C10 witness: the concrete failing run touches nothing. -/
theorem rasterize_error_no_filesystem_writes_witness :
    (compare_pdf_pages testBackend "a.pdf" "missing.pdf" "out").events = [] :=
  rasterize_error_no_filesystem_writes testBackend "a.pdf" "missing.pdf" "out"
    "not found: missing.pdf" (Or.inr (by decide))
